import Mathlib

/-
Verification development for the SIR chat backend (Express + MongoDB + Redis
+ HuggingFace inference).  The definitions below are a shallow embedding of
the chat request pipeline: the rate-limiting middleware, the validation
middleware, the cached history endpoint, the prompt assembly, the
primary/fallback inference orchestration, and the stream relay
(handleStreamResponse), together with the Redis cache utility functions.
Machine integers are modelled as Nat (timestamps in milliseconds); fallible
steps are modelled with Except/Option; JavaScript Map and the Redis keyspace
are modelled as association lists.
-/

namespace SIR

/-- A persisted chat turn (the Chat mongoose model): owning user id, request
message, generated response, creation timestamp in milliseconds. -/
structure Chat where
  user_id : String
  message : String
  response : String
  timestamp : Nat
deriving DecidableEq, Repr

/- ---------------- Rate governor (rateLimit middleware) ---------------- -/

/-- One per-user rate-window entry: request count and window start time,
as stored in the module-level rateLimitCache Map. -/
structure RateEntry where
  count : Nat
  timestamp : Nat
deriving DecidableEq, Repr

/-- The rateLimitCache JavaScript Map, modelled as an association list. -/
abbrev RateState := List (String × RateEntry)

/-- The cleanup loop at the top of the rateLimit middleware: every entry
with now - timestamp strictly greater than the window is deleted. -/
def purgeStale (window now : Nat) (st : RateState) : RateState :=
  st.filter (fun kv => now - kv.2.timestamp ≤ window)

/-- Map.get on the association list: value of the first binding of the key. -/
def mapGet (st : RateState) (k : String) : Option RateEntry :=
  match st.find? (fun kv => kv.1 = k) with
  | some kv => some kv.2
  | none => none

/-- Map.set on the association list: replace the binding in place when the
key is present, append a fresh binding otherwise. -/
def mapSet (st : RateState) (k : String) (v : RateEntry) : RateState :=
  if st.any (fun kv => kv.1 = k) then
    st.map (fun kv => if kv.1 = k then (k, v) else kv)
  else
    st ++ [(k, v)]

/-- Outcome of the rateLimit middleware for one request. -/
inductive RateResult where
  | allowed
  | denied (retryAfterSeconds : Nat)
deriving DecidableEq, Repr

/-- Math.ceil(ms / 1000) on a nonnegative millisecond count. -/
def ceilSeconds (ms : Nat) : Nat :=
  (ms + 999) / 1000

/-- The rateLimit middleware body: purge stale entries, then admit or deny
the request of userId arriving at time now, updating the shared Map.
Denial computes Math.ceil((RATE_LIMIT_WINDOW - (now - timestamp)) / 1000). -/
def rateLimit (window maxReq : Nat) (st : RateState) (userId : String) (now : Nat) :
    RateResult × RateState :=
  let st1 := purgeStale window now st
  match mapGet st1 userId with
  | some e =>
      if maxReq ≤ e.count then
        (RateResult.denied (ceilSeconds (window - (now - e.timestamp))), st1)
      else
        (RateResult.allowed, mapSet st1 userId { count := e.count + 1, timestamp := e.timestamp })
  | none =>
      (RateResult.allowed, mapSet st1 userId { count := 1, timestamp := now })

/-- A sequence of requests by one user at the given times, threaded through
the shared rate-limit state. -/
def runRequests (window maxReq : Nat) (st : RateState) (userId : String) :
    List Nat → List RateResult × RateState
  | [] => ([], st)
  | t :: ts =>
      let r := rateLimit window maxReq st userId t
      let rest := runRequests window maxReq r.2 userId ts
      (r.1 :: rest.1, rest.2)

/- ---------------- Cache utilities (utils/cache.js over Redis) ---------------- -/

/-- A paginated history page as returned by GET /history. -/
structure HistoryResponse where
  chats : List Chat
  totalPages : Nat
  currentPage : Nat
deriving DecidableEq, Repr

/-- One stored cache value together with its EX expiry in seconds. -/
structure CacheSlot where
  value : HistoryResponse
  expiry : Nat
deriving DecidableEq, Repr

/-- The Redis keyspace visible to this service, as an association list. -/
abbrev CacheState := List (String × CacheSlot)

/-- getCache: redisClient.get on the exact key. -/
def getCache (c : CacheState) (k : String) : Option HistoryResponse :=
  match c.find? (fun kv => kv.1 = k) with
  | some kv => some kv.2.value
  | none => none

/-- setCache: redisClient.set with EX expiry, overwriting the key. -/
def setCache (c : CacheState) (k : String) (v : HistoryResponse) (expireTime : Nat) :
    CacheState :=
  (c.filter (fun kv => kv.1 ≠ k)) ++ [(k, ⟨v, expireTime⟩)]

/-- deleteCache: redisClient.del removes exactly the given key.  Redis DEL
performs no glob or pattern expansion: a key containing a star character is
an ordinary key. -/
def deleteCache (c : CacheState) (k : String) : CacheState :=
  c.filter (fun kv => kv.1 ≠ k)

/- ---------------- Chat history service (router.get on /history) ---------------- -/

/-- Insert one turn into a list kept sorted by descending timestamp. -/
def insertDesc (c : Chat) : List Chat → List Chat
  | [] => [c]
  | d :: ds => if d.timestamp ≤ c.timestamp then c :: d :: ds else d :: insertDesc c ds

/-- Sort turns by descending timestamp (the mongoose sort with timestamp -1). -/
def sortDesc (l : List Chat) : List Chat :=
  l.foldr insertDesc []

/-- The composite cache key chat_history:userId:page:limit. -/
def cacheKey (userId : String) (page limit : Nat) : String :=
  "chat_history:" ++ userId ++ ":" ++ toString page ++ ":" ++ toString limit

/-- The turns of one user, newest first (Chat.find with user_id filter and
descending timestamp sort). -/
def userTurnsDesc (store : List Chat) (userId : String) : List Chat :=
  sortDesc (store.filter (fun c => c.user_id = userId))

/-- The GET /history handler: page and limit default to 1 and 20 when the
query parameters are absent; on a cache hit the cached page is returned
unchanged; on a miss the store is queried newest-first with skip
(page - 1) * limit and limit, totalPages is Math.ceil(total / limit), and
the response is cached for 300 seconds.  Returns the response together
with the cache state after the call. -/
def getHistory (store : List Chat) (cache : CacheState) (userId : String)
    (pageQ limitQ : Option Nat) : HistoryResponse × CacheState :=
  let page := pageQ.getD 1
  let limit := limitQ.getD 20
  let key := cacheKey userId page limit
  match getCache cache key with
  | some cached => (cached, cache)
  | none =>
      let mine := userTurnsDesc store userId
      let chatHistory := (mine.drop ((page - 1) * limit)).take limit
      let total := (store.filter (fun c => c.user_id = userId)).length
      let resp : HistoryResponse :=
        { chats := chatHistory, totalPages := (total + limit - 1) / limit, currentPage := page }
      (resp, setCache cache key resp 300)

/- ---------------- Context assembler (prompt construction in router.post) ---------------- -/

/-- Message roles in the assembled conversation. -/
inductive Role where
  | user
  | assistant
deriving DecidableEq, Repr

/-- One logical turn handed to the prompt formatter. -/
structure Msg where
  role : Role
  content : String
deriving DecidableEq, Repr

/-- The last-5 history fetch feeding the prompt: Chat.find with user filter,
descending timestamp sort, limit 5. -/
def fetchRecentHistory (store : List Chat) (userId : String) : List Chat :=
  (userTurnsDesc store userId).take 5

/-- chatHistory.map to user/assistant pairs, flattened, with the new user
message pushed at the end. -/
def buildMessages (chatHistory : List Chat) (message : String) : List Msg :=
  (chatHistory.map (fun c =>
    [{ role := Role.user, content := c.message },
     { role := Role.assistant, content := c.response }])).flatten
  ++ [{ role := Role.user, content := message }]

/-- The per-message template: user turns are wrapped in the Mistral
instruction delimiters, assistant turns are emitted plain. -/
def formatTurn (m : Msg) : String :=
  (if m.role = Role.user then "<s>[INST] " else "")
    ++ m.content
    ++ (if m.role = Role.user then " [/INST]" else "")

/-- The prompt string sent to the provider: formatted turns joined by a
newline. -/
def buildPrompt (chatHistory : List Chat) (message : String) : String :=
  String.intercalate "\n" ((buildMessages chatHistory message).map formatTurn)

/- ---------------- Inference client and fallback orchestrator ---------------- -/

/-- The request body of the axios.post call in router.post: the prompt plus
the generation parameters; both provider calls in the source use exactly
these values. -/
structure InferenceRequest where
  inputs : String
  max_new_tokens : Nat
  temperature : Rat
  top_p : Rat
  return_full_text : Bool
  stream : Bool
deriving DecidableEq, Repr

/-- The concrete request both the primary and the fallback call build from
the assembled prompt. -/
def hfRequest (prompt : String) : InferenceRequest :=
  { inputs := prompt
    max_new_tokens := 1000
    temperature := (7 : Rat) / 10
    top_p := (95 : Rat) / 100
    return_full_text := false
    stream := true }

/-- One wire line of the upstream response stream, as classified by the
data handler in handleStreamResponse: a line not starting with the data
marker, a data line whose JSON fails to parse, or a parsed frame carrying
an optional generated_text field. -/
inductive StreamLine where
  | other
  | parseError
  | frame (generated : Option String)
deriving DecidableEq, Repr

/-- How the upstream stream terminates: the end event or the error event. -/
inductive StreamEnd where
  | ended
  | errored
deriving DecidableEq, Repr

/-- The body of a successful provider call: its stream of lines and its
terminal event. -/
structure StreamData where
  lines : List StreamLine
  ending : StreamEnd
deriving DecidableEq, Repr

/-- The error shape produced by a failed axios call: an optional code such
as ECONNABORTED, an optional provider response, and a message. -/
structure ProviderResponse where
  status : Nat
  data : String
deriving DecidableEq, Repr

/-- Axios error duck type as inspected by the outer catch of router.post. -/
structure AxiosError where
  code : Option String
  response : Option ProviderResponse
  message : String
deriving DecidableEq, Repr

/-- Which provider a call went to. -/
inductive Provider where
  | primary
  | fallback
deriving DecidableEq, Repr

/-- The try/catch fallback orchestration of router.post: call the primary
with the request built from the prompt; on any primary failure call the
fallback with the identical request; a fallback failure is rethrown, so the
surfaced error is the fallback error.  The second component records the
calls actually issued, in order. -/
def runWithFallback (primaryCall fallbackCall : InferenceRequest → Except AxiosError StreamData)
    (prompt : String) : Except AxiosError StreamData × List (Provider × InferenceRequest) :=
  let req := hfRequest prompt
  match primaryCall req with
  | Except.ok s => (Except.ok s, [(Provider.primary, req)])
  | Except.error _ =>
      match fallbackCall req with
      | Except.ok s => (Except.ok s, [(Provider.primary, req), (Provider.fallback, req)])
      | Except.error e2 =>
          (Except.error e2, [(Provider.primary, req), (Provider.fallback, req)])

/- ---------------- Stream relay (handleStreamResponse) ---------------- -/

/-- Events written to the SSE sink, at the granularity of the wire frames
the handler emits: a delta frame with content, the terminal DONE sentinel,
or an in-band error frame. -/
inductive SinkEvent where
  | delta (content : String)
  | done
  | errorEvent (msg : String)
deriving DecidableEq, Repr

/-- One operation on the response object: a write of an event or res.end. -/
inductive SinkOp where
  | write (e : SinkEvent)
  | close
deriving DecidableEq, Repr

/-- One step of the data handler: a parsed frame whose generated_text field
is present and truthy (a nonempty string) is appended to the accumulated
full response and forwarded as a delta write; every other line is skipped
(parse failures are only logged). -/
def stepFragment (acc : String × List SinkOp) (l : StreamLine) : String × List SinkOp :=
  match l with
  | StreamLine.frame (some s) =>
      if s = "" then acc else (acc.1 ++ s, acc.2 ++ [SinkOp.write (SinkEvent.delta s)])
  | _ => acc

/-- The whole data phase of handleStreamResponse: fold the data handler
over the stream lines, producing the accumulated fullResponse and the
delta writes issued, in order. -/
def processLines (lines : List StreamLine) : String × List SinkOp :=
  lines.foldl stepFragment ("", [])

/-- The generated_text field of a successfully parsed frame. -/
def generatedText : StreamLine → Option String
  | StreamLine.frame g => g
  | _ => none

/-- Concatenation of a list of strings in order. -/
def concatTexts (l : List String) : String :=
  l.foldr (fun a b => a ++ b) ""

/-- handleStreamResponse: run the data handler over the lines, then the
terminal handler.  On the end event the accumulated turn is saved (saveOk
tells whether the mongoose save succeeds); on success the literal key
chat_history:userId:* is deleted from the cache and the DONE sentinel is
written; on save failure an error frame is written instead; on the stream
error event an error frame is written.  Every path ends with res.end.
Returns the sink trace, the store after the call, and the cache after the
call. -/
def handleStreamResponse (lines : List StreamLine) (ending : StreamEnd) (saveOk : Bool)
    (store : List Chat) (cache : CacheState) (userId message : String) (now : Nat) :
    List SinkOp × List Chat × CacheState :=
  let full := (processLines lines).1
  let deltas := (processLines lines).2
  match ending with
  | StreamEnd.errored =>
      (deltas ++ [SinkOp.write (SinkEvent.errorEvent "Stream error"), SinkOp.close],
       store, cache)
  | StreamEnd.ended =>
      if saveOk then
        (deltas ++ [SinkOp.write SinkEvent.done, SinkOp.close],
         store ++ [{ user_id := userId, message := message, response := full, timestamp := now }],
         deleteCache cache ("chat_history:" ++ userId ++ ":*"))
      else
        (deltas ++ [SinkOp.write (SinkEvent.errorEvent "Error saving chat"), SinkOp.close],
         store, cache)

/-- The generated_text of a frame that the data handler actually forwards:
present and truthy, that is, a nonempty string. -/
def nonemptyText : StreamLine → Option String
  | StreamLine.frame (some s) => if s = "" then none else some s
  | _ => none

/-- Number of res.end calls recorded in a sink trace. -/
def countClose (t : List SinkOp) : Nat :=
  (t.filter (fun o => o = SinkOp.close)).length

/-- Rendering of the prompt turns following the words of the specification:
each stored turn expands to a user turn wrapped in the instruction
delimiters followed by a plain assistant turn, and the new user message is
the final turn.  Stated from the spec for comparison with buildPrompt. -/
def specTurnStrings (history : List Chat) (message : String) : List String :=
  (history.map (fun c => ["<s>[INST] " ++ c.message ++ " [/INST]", c.response])).flatten
    ++ ["<s>[INST] " ++ message ++ " [/INST]"]

/-- A provider stub whose call always fails with a bare network error. -/
def primaryDownCall : InferenceRequest → Except AxiosError StreamData :=
  fun _ => Except.error { code := none, response := none, message := "primary down" }

/-- A provider stub whose call always fails with a 503 provider response. -/
def fallbackDownCall : InferenceRequest → Except AxiosError StreamData :=
  fun _ => Except.error
    { code := none
      response := some { status := 503, data := "Service Unavailable" }
      message := "fallback down" }

/- ---------------- POST / pipeline before streaming ---------------- -/

/-- The failure condition of validateChatRequest: body("message").trim()
.notEmpty() rejects exactly the messages whose characters are all
whitespace (the trimmed message is empty). -/
def isBlank (s : String) : Bool :=
  s.data.all Char.isWhitespace

/-- JSON body shapes the chat endpoints produce on the non-stream path. -/
inductive RespBody where
  | errorMessage (error : String) (message : String)
  | errorsArray (errors : List String)
  | sse
deriving DecidableEq, Repr

/-- Whether a body is of the two-field error/message shape. -/
def RespBody.isErrorMessage : RespBody → Bool
  | RespBody.errorMessage _ _ => true
  | _ => false

/-- The outer catch of router.post: ECONNABORTED maps to 504, an error
carrying a provider response maps to the provider status, anything else
maps to 500. -/
def catchErrorResponse (e : AxiosError) : Nat × RespBody :=
  if e.code = some "ECONNABORTED" then
    (504, RespBody.errorMessage "Request timeout" "AI service took too long to respond")
  else
    match e.response with
    | some r => (r.status, RespBody.errorMessage "AI service error" r.data)
    | none => (500, RespBody.errorMessage "Server error" e.message)

/-- The middleware pipeline of POST / up to the streaming phase:
validateChatRequest with handleValidationErrors first (trimmed message must
be nonempty, otherwise 400 with an errors array), then rateLimit (denial
is 429 with the retry seconds interpolated into the message), then the
inference attempt whose outcome is passed in: a pre-stream failure is
handled by the outer catch, success proceeds to the SSE stream.  Returns
the status and body together with the rate-limit state after the call. -/
def chatPost (window maxReq : Nat) (st : RateState) (userId : String) (now : Nat)
    (message : String) (inference : Except AxiosError Unit) :
    (Nat × RespBody) × RateState :=
  if isBlank message then
    ((400, RespBody.errorsArray ["Message cannot be empty"]), st)
  else
    match rateLimit window maxReq st userId now with
    | (RateResult.denied retry, st1) =>
        ((429, RespBody.errorMessage "Rate limit exceeded"
            ("Please wait " ++ toString retry ++ " seconds before trying again")), st1)
    | (RateResult.allowed, st1) =>
        match inference with
        | Except.error e => (catchErrorResponse e, st1)
        | Except.ok _ => ((200, RespBody.sse), st1)

/- ==================== Lemmas and claim theorems ==================== -/

theorem rateLimit_empty (window maxReq : Nat) (u : String) (now : Nat) :
    rateLimit window maxReq [] u now = (RateResult.allowed, [(u, ⟨1, now⟩)]) := rfl

theorem rateLimit_live_allowed (window maxReq : Nat) (u : String) (c t0 now : Nat)
    (hlive : now - t0 ≤ window) (hc : c < maxReq) :
    rateLimit window maxReq [(u, ⟨c, t0⟩)] u now
      = (RateResult.allowed, [(u, ⟨c + 1, t0⟩)]) := by
  have hlive2 : now ≤ window + t0 := by omega
  simp [rateLimit, purgeStale, mapGet, mapSet, hlive2, Nat.not_le.mpr hc]

theorem rateLimit_live_denied (window maxReq : Nat) (u : String) (c t0 now : Nat)
    (hlive : now - t0 ≤ window) (hc : maxReq ≤ c) :
    rateLimit window maxReq [(u, ⟨c, t0⟩)] u now
      = (RateResult.denied (ceilSeconds (window - (now - t0))), [(u, ⟨c, t0⟩)]) := by
  have hlive2 : now ≤ window + t0 := by omega
  simp [rateLimit, purgeStale, mapGet, mapSet, hlive2, hc]

theorem rateLimit_stale_entry (window maxReq : Nat) (u : String) (c t0 now : Nat)
    (hstale : window < now - t0) :
    rateLimit window maxReq [(u, ⟨c, t0⟩)] u now
      = (RateResult.allowed, [(u, ⟨1, now⟩)]) := by
  have hstale2 : ¬ now ≤ window + t0 := by omega
  simp [rateLimit, purgeStale, mapGet, mapSet, hstale2]

theorem runRequests_live (window maxReq : Nat) (u : String) (t0 : Nat) :
    ∀ (ts : List Nat) (c : Nat), (∀ t ∈ ts, t - t0 ≤ window) → c + ts.length ≤ maxReq →
      runRequests window maxReq [(u, ⟨c, t0⟩)] u ts
        = (List.replicate ts.length RateResult.allowed, [(u, ⟨c + ts.length, t0⟩)]) := by
  intro ts
  induction ts with
  | nil => intro c _ _; simp [runRequests]
  | cons t ts ih =>
      intro c hts hlen
      have h1 : t - t0 ≤ window := hts t (List.mem_cons_self t ts)
      have hc : c < maxReq := by
        have := ts.length
        simp only [List.length_cons] at hlen
        omega
      simp only [runRequests]
      rw [rateLimit_live_allowed window maxReq u c t0 t h1 hc]
      rw [ih (c + 1) (fun x hx => hts x (List.mem_cons_of_mem t hx)) (by
        simp only [List.length_cons] at hlen
        omega)]
      simp [List.replicate_succ]
      omega

theorem mem_mapSet (st : RateState) (k : String) (v : RateEntry) (kv : String × RateEntry)
    (h : kv ∈ mapSet st k v) : kv = (k, v) ∨ kv ∈ st := by
  unfold mapSet at h
  split at h
  · obtain ⟨kv0, hkv0, heq⟩ := List.mem_map.mp h
    by_cases hk : kv0.1 = k
    · left
      rw [if_pos hk] at heq
      exact heq.symm
    · right
      rw [if_neg hk] at heq
      exact heq ▸ hkv0
  · rcases List.mem_append.mp h with h1 | h2
    · right; exact h1
    · left; simpa using h2

theorem rateLimit_count_bound (window maxReq : Nat) (hmax : 1 ≤ maxReq) (st : RateState)
    (u : String) (now : Nat) (hst : ∀ kv ∈ st, kv.2.count ≤ maxReq) :
    ∀ kv ∈ (rateLimit window maxReq st u now).2, kv.2.count ≤ maxReq := by
  intro kv hkv
  have hst1 : ∀ kv ∈ purgeStale window now st, kv.2.count ≤ maxReq := by
    intro kv hkv
    exact hst kv (List.mem_of_mem_filter hkv)
  unfold rateLimit at hkv
  simp only at hkv
  split at hkv
  case h_1 e heq =>
    split at hkv
    · exact hst1 kv hkv
    case isFalse hlt =>
      rcases mem_mapSet _ _ _ _ hkv with h1 | h2
      · subst h1
        simpa using Nat.succ_le_of_lt (Nat.lt_of_not_le hlt)
      · exact hst1 kv h2
  case h_2 heq =>
    rcases mem_mapSet _ _ _ _ hkv with h1 | h2
    · subst h1
      simpa using hmax
    · exact hst1 kv h2

set_option maxRecDepth 100000 in
/-- C4 counterexample: with the default window (900000 ms) and maximum
(100), a user issuing 100 requests at time 0 and a 101st request at time
900000 is still inside the window (the purge removes entries only when the
age strictly exceeds the window), and the denial carries retryAfterSeconds
Math.ceil((900000 - 900000) / 1000) = 0, which is not positive, contrary
to the claim that the (max+1)-th request in the window is denied with a
positive retry-after. -/
theorem rateLimit_boundary_counterexample :
    (runRequests 900000 100 [] "u" (List.replicate 100 0 ++ [900000])).1.getLast?
      = some (RateResult.denied 0)
    ∧ ¬ 0 < 0 := by
  constructor
  · decide
  · decide

/-- C4 (amended): starting from an empty rate-limit map, a user making
maxReq requests within one window (first at t0, the rest at times at most
t0 + window) is admitted every time, ending with count maxReq and window
start t0; a further request still inside the window is denied, and the
POST / pipeline turns that denial into a 429 with the retry seconds in the
message; the retry value is Math.ceil of the remaining window in seconds,
positive whenever the denial happens strictly before the window end (at
the exact expiry instant it is 0); the count of every live entry never
exceeds maxReq; and an entry whose age strictly exceeds the window is
treated as absent (the next request is admitted on a fresh entry). -/
theorem rateLimit_window_admission (window maxReq : Nat) (hmax : 1 ≤ maxReq) (u : String)
    (t0 : Nat) (ts : List Nat) (hlen : ts.length + 1 = maxReq)
    (hts : ∀ t ∈ ts, t0 ≤ t ∧ t - t0 ≤ window)
    (tD : Nat) (hD0 : t0 ≤ tD) (hDw : tD - t0 ≤ window)
    (m : String) (hm : isBlank m = false) (inference : Except AxiosError Unit) :
    (runRequests window maxReq [] u (t0 :: ts)).1
        = List.replicate maxReq RateResult.allowed
    ∧ (runRequests window maxReq [] u (t0 :: ts)).2 = [(u, ⟨maxReq, t0⟩)]
    ∧ (rateLimit window maxReq [(u, ⟨maxReq, t0⟩)] u tD).1
        = RateResult.denied (ceilSeconds (window - (tD - t0)))
    ∧ (chatPost window maxReq [(u, ⟨maxReq, t0⟩)] u tD m inference).1
        = (429, RespBody.errorMessage "Rate limit exceeded"
            ("Please wait " ++ toString (ceilSeconds (window - (tD - t0)))
              ++ " seconds before trying again"))
    ∧ (tD - t0 < window → 0 < ceilSeconds (window - (tD - t0)))
    ∧ (∀ st now, (∀ kv ∈ st, kv.2.count ≤ maxReq) →
        ∀ kv ∈ (rateLimit window maxReq st u now).2, kv.2.count ≤ maxReq)
    ∧ (∀ c tOld now, window < now - tOld →
        rateLimit window maxReq [(u, ⟨c, tOld⟩)] u now
          = (RateResult.allowed, [(u, ⟨1, now⟩)])) := by
  have hrun : runRequests window maxReq [] u (t0 :: ts)
      = (List.replicate maxReq RateResult.allowed, [(u, ⟨maxReq, t0⟩)]) := by
    simp only [runRequests, rateLimit_empty]
    rw [runRequests_live window maxReq u t0 ts 1
      (fun t ht => (hts t ht).2) (by omega)]
    have hrep : maxReq = ts.length + 1 := hlen.symm
    subst hrep
    simp [List.replicate_succ]
    omega
  have hdeny := rateLimit_live_denied window maxReq u maxReq t0 tD hDw (le_refl maxReq)
  refine ⟨by rw [hrun], by rw [hrun], by rw [hdeny], ?_, ?_, ?_, ?_⟩
  · simp only [chatPost, hm, Bool.false_eq_true, if_false, hdeny]
  · intro hlt
    have : 1 ≤ window - (tD - t0) := by omega
    simp only [ceilSeconds]
    omega
  · intro st now hst
    exact rateLimit_count_bound window maxReq hmax st u now hst
  · intro c tOld now hstale
    exact rateLimit_stale_entry window maxReq u c tOld now hstale

/-- C4 witness: a concrete instance of the amended rate-limit theorem with
window 1000 ms, maximum 2, requests at 0 and 500, and a denied third
request at 700. -/
theorem rateLimit_window_admission_witness :
    (runRequests 1000 2 [] "u" (0 :: [500])).1 = List.replicate 2 RateResult.allowed
    ∧ (runRequests 1000 2 [] "u" (0 :: [500])).2 = [("u", ⟨2, 0⟩)]
    ∧ (rateLimit 1000 2 [("u", ⟨2, 0⟩)] "u" 700).1
        = RateResult.denied (ceilSeconds (1000 - (700 - 0)))
    ∧ (chatPost 1000 2 [("u", ⟨2, 0⟩)] "u" 700 "hi" (Except.ok ())).1
        = (429, RespBody.errorMessage "Rate limit exceeded"
            ("Please wait " ++ toString (ceilSeconds (1000 - (700 - 0)))
              ++ " seconds before trying again"))
    ∧ (700 - 0 < 1000 → 0 < ceilSeconds (1000 - (700 - 0))) := by
  have h := rateLimit_window_admission 1000 2 (by decide) "u" 0 [500] (by decide)
    (by decide) 700 (by decide) (by decide) "hi" (by decide) (Except.ok ())
  exact ⟨h.1, h.2.1, h.2.2.1, h.2.2.2.1, h.2.2.2.2.1⟩

theorem foldl_stepFragment (lines : List StreamLine) : ∀ (acc : String) (tr : List SinkOp),
    lines.foldl stepFragment (acc, tr)
      = (acc ++ concatTexts (lines.filterMap generatedText),
         tr ++ (lines.filterMap nonemptyText).map (fun s => SinkOp.write (SinkEvent.delta s))) := by
  induction lines with
  | nil => intro acc tr; simp [concatTexts]
  | cons l ls ih =>
      intro acc tr
      cases l with
      | other => simpa [stepFragment, generatedText, nonemptyText] using ih acc tr
      | parseError => simpa [stepFragment, generatedText, nonemptyText] using ih acc tr
      | frame g =>
          cases g with
          | none => simpa [stepFragment, generatedText, nonemptyText] using ih acc tr
          | some s =>
              by_cases hs : s = ""
              · subst hs
                have hstep : stepFragment (acc, tr) (StreamLine.frame (some "")) = (acc, tr) := by
                  simp [stepFragment]
                rw [List.foldl_cons, hstep, ih acc tr]
                simp [concatTexts, generatedText, nonemptyText]
              · have hstep : stepFragment (acc, tr) (StreamLine.frame (some s))
                    = (acc ++ s, tr ++ [SinkOp.write (SinkEvent.delta s)]) := by
                  simp [stepFragment, hs]
                rw [List.foldl_cons, hstep,
                  ih (acc ++ s) (tr ++ [SinkOp.write (SinkEvent.delta s)])]
                simp [concatTexts, generatedText, nonemptyText, hs, String.append_assoc]

theorem processLines_eq (lines : List StreamLine) :
    processLines lines
      = (concatTexts (lines.filterMap generatedText),
         (lines.filterMap nonemptyText).map (fun s => SinkOp.write (SinkEvent.delta s))) := by
  have h := foldl_stepFragment lines "" []
  simpa [processLines] using h

theorem close_not_mem_deltas (lines : List StreamLine) :
    SinkOp.close ∉ (processLines lines).2 := by
  rw [processLines_eq]
  intro h
  obtain ⟨s, _, heq⟩ := List.mem_map.mp h
  exact SinkOp.noConfusion heq

theorem done_not_mem_deltas (lines : List StreamLine) :
    SinkOp.write SinkEvent.done ∉ (processLines lines).2 := by
  rw [processLines_eq]
  intro h
  obtain ⟨s, _, heq⟩ := List.mem_map.mp h
  simp at heq

theorem countClose_append_close (pre : List SinkOp) (h : SinkOp.close ∉ pre) :
    countClose (pre ++ [SinkOp.close]) = 1 := by
  unfold countClose
  rw [List.filter_append]
  have hnil : pre.filter (fun o => o = SinkOp.close) = [] := by
    apply List.filter_eq_nil_iff.mpr
    intro a ha
    simp only [decide_eq_true_eq]
    intro heq
    exact h (heq ▸ ha)
  simp [hnil]

/-- C3: when the upstream stream ends and the save succeeds, exactly one
ChatTurn is appended to the store and its response is the concatenation,
in forwarding order, of the generated_text fields of the frames that
parsed successfully; the forwarded deltas are exactly the truthy fragments
in order followed by the DONE sentinel; and a frame that fails to parse
contributes nothing and does not terminate the stream (deleting it from
the line sequence leaves the whole result unchanged). -/
theorem stream_success_persistence (lines : List StreamLine) (store : List Chat)
    (cache : CacheState) (u m : String) (now : Nat) :
    (handleStreamResponse lines StreamEnd.ended true store cache u m now).2.1
      = store ++ [⟨u, m, concatTexts (lines.filterMap generatedText), now⟩]
    ∧ (handleStreamResponse lines StreamEnd.ended true store cache u m now).1
      = ((lines.filterMap nonemptyText).map (fun s => SinkOp.write (SinkEvent.delta s)))
          ++ [SinkOp.write SinkEvent.done, SinkOp.close]
    ∧ ∀ (pre post : List StreamLine),
        handleStreamResponse (pre ++ StreamLine.parseError :: post)
            StreamEnd.ended true store cache u m now
          = handleStreamResponse (pre ++ post) StreamEnd.ended true store cache u m now := by
  refine ⟨?_, ?_, ?_⟩
  · simp [handleStreamResponse, processLines_eq]
  · simp [handleStreamResponse, processLines_eq]
  · intro pre post
    have hfold : processLines (pre ++ StreamLine.parseError :: post)
        = processLines (pre ++ post) := by
      simp [processLines, List.foldl_append, List.foldl_cons, stepFragment]
    simp [handleStreamResponse, hfold]

/-- C2 counterexample: a stream that delivered the fragment Hi, ended, and
whose save then fails, writes the delta, then an in-band error frame, then
closes the sink; the DONE sentinel is never written, contrary to the claim
that the terminal sentinel is still emitted when persistence fails. -/
theorem persistence_failure_done_counterexample :
    (handleStreamResponse [StreamLine.frame (some "Hi")] StreamEnd.ended false
        [] [] "u" "m" 0).1
      = [SinkOp.write (SinkEvent.delta "Hi"),
         SinkOp.write (SinkEvent.errorEvent "Error saving chat"), SinkOp.close]
    ∧ SinkOp.write SinkEvent.done
        ∉ (handleStreamResponse [StreamLine.frame (some "Hi")] StreamEnd.ended false
            [] [] "u" "m" 0).1 := by
  constructor
  · rfl
  · decide

/-- C2 (amended): when the stream ends but persistence fails, the already
forwarded deltas are followed by a single in-band error frame, not by the
DONE sentinel, the sink is then closed, and the turn is lost (store and
cache are unchanged). -/
theorem persistence_failure_stream_behavior (lines : List StreamLine) (store : List Chat)
    (cache : CacheState) (u m : String) (now : Nat) :
    (handleStreamResponse lines StreamEnd.ended false store cache u m now).1
      = (processLines lines).2
          ++ [SinkOp.write (SinkEvent.errorEvent "Error saving chat"), SinkOp.close]
    ∧ SinkOp.write SinkEvent.done
        ∉ (handleStreamResponse lines StreamEnd.ended false store cache u m now).1
    ∧ (handleStreamResponse lines StreamEnd.ended false store cache u m now).2.1 = store
    ∧ (handleStreamResponse lines StreamEnd.ended false store cache u m now).2.2 = cache
    ∧ (handleStreamResponse lines StreamEnd.ended false store cache u m now).1.getLast?
        = some SinkOp.close := by
  have htr : (handleStreamResponse lines StreamEnd.ended false store cache u m now).1
      = (processLines lines).2
          ++ [SinkOp.write (SinkEvent.errorEvent "Error saving chat"), SinkOp.close] := by
    simp [handleStreamResponse]
  refine ⟨htr, ?_, by simp [handleStreamResponse], by simp [handleStreamResponse], ?_⟩
  · rw [htr]
    intro hmem
    rcases List.mem_append.mp hmem with h1 | h2
    · exact done_not_mem_deltas lines h1
    · simp at h2
  · rw [htr, show (processLines lines).2
        ++ [SinkOp.write (SinkEvent.errorEvent "Error saving chat"), SinkOp.close]
      = ((processLines lines).2
        ++ [SinkOp.write (SinkEvent.errorEvent "Error saving chat")]) ++ [SinkOp.close] by simp]
    exact List.getLast?_concat _

/-- C9: on every exit path of the stream relay (stream completion with the
save succeeding, stream completion with the save failing, upstream stream
error) the sink trace ends with exactly one close and nothing is written
after it. -/
theorem relay_sink_closed_once (lines : List StreamLine) (ending : StreamEnd) (saveOk : Bool)
    (store : List Chat) (cache : CacheState) (u m : String) (now : Nat) :
    countClose (handleStreamResponse lines ending saveOk store cache u m now).1 = 1
    ∧ (handleStreamResponse lines ending saveOk store cache u m now).1.getLast?
        = some SinkOp.close
    ∧ ∃ pre, (handleStreamResponse lines ending saveOk store cache u m now).1
          = pre ++ [SinkOp.close]
        ∧ SinkOp.close ∉ pre := by
  have key : ∀ w : SinkEvent,
      countClose ((processLines lines).2 ++ [SinkOp.write w, SinkOp.close]) = 1
      ∧ ((processLines lines).2 ++ [SinkOp.write w, SinkOp.close]).getLast?
          = some SinkOp.close
      ∧ ∃ pre, (processLines lines).2 ++ [SinkOp.write w, SinkOp.close]
            = pre ++ [SinkOp.close]
          ∧ SinkOp.close ∉ pre := by
    intro w
    have hpre : SinkOp.close ∉ (processLines lines).2 ++ [SinkOp.write w] := by
      intro hmem
      rcases List.mem_append.mp hmem with h1 | h2
      · exact close_not_mem_deltas lines h1
      · simp at h2
    have heq : (processLines lines).2 ++ [SinkOp.write w, SinkOp.close]
        = ((processLines lines).2 ++ [SinkOp.write w]) ++ [SinkOp.close] := by simp
    refine ⟨?_, ?_, (processLines lines).2 ++ [SinkOp.write w], heq, hpre⟩
    · rw [heq]
      exact countClose_append_close _ hpre
    · rw [heq]
      exact List.getLast?_concat _
  cases ending with
  | errored => simpa [handleStreamResponse] using key (SinkEvent.errorEvent "Stream error")
  | ended =>
      cases saveOk with
      | true => simpa [handleStreamResponse] using key SinkEvent.done
      | false => simpa [handleStreamResponse] using key (SinkEvent.errorEvent "Error saving chat")

theorem mem_insertDesc (c x : Chat) : ∀ l, x ∈ insertDesc c l ↔ x = c ∨ x ∈ l := by
  intro l
  induction l with
  | nil => simp [insertDesc]
  | cons d ds ih =>
      simp only [insertDesc]
      split
      · simp [List.mem_cons]
      · simp only [List.mem_cons, ih]
        tauto

theorem pairwise_insertDesc (c : Chat) :
    ∀ l, l.Pairwise (fun a b => b.timestamp ≤ a.timestamp) →
      (insertDesc c l).Pairwise (fun a b => b.timestamp ≤ a.timestamp) := by
  intro l
  induction l with
  | nil => intro _; simp [insertDesc]
  | cons d ds ih =>
      intro hp
      rw [List.pairwise_cons] at hp
      obtain ⟨hd, hds⟩ := hp
      simp only [insertDesc]
      split
      case isTrue hdc =>
        rw [List.pairwise_cons]
        refine ⟨?_, List.pairwise_cons.mpr ⟨hd, hds⟩⟩
        intro x hx
        rcases List.mem_cons.mp hx with rfl | hx2
        · exact hdc
        · exact le_trans (hd x hx2) hdc
      case isFalse hdc =>
        rw [List.pairwise_cons]
        refine ⟨?_, ih hds⟩
        intro x hx
        rcases (mem_insertDesc c x ds).mp hx with rfl | hx2
        · omega
        · exact hd x hx2

theorem sortDesc_cons (c : Chat) (l : List Chat) :
    sortDesc (c :: l) = insertDesc c (sortDesc l) := rfl

theorem pairwise_sortDesc (l : List Chat) :
    (sortDesc l).Pairwise (fun a b => b.timestamp ≤ a.timestamp) := by
  induction l with
  | nil => simp [sortDesc]
  | cons c cs ih =>
      rw [sortDesc_cons]
      exact pairwise_insertDesc c _ ih

theorem mem_sortDesc (x : Chat) : ∀ l, x ∈ sortDesc l ↔ x ∈ l := by
  intro l
  induction l with
  | nil => simp [sortDesc]
  | cons c cs ih =>
      rw [sortDesc_cons, mem_insertDesc, ih]
      simp [List.mem_cons]

theorem formatTurn_user (s : String) :
    formatTurn ⟨Role.user, s⟩ = "<s>[INST] " ++ s ++ " [/INST]" := by
  simp [formatTurn, String.append_assoc]

theorem formatTurn_assistant (s : String) : formatTurn ⟨Role.assistant, s⟩ = s := by
  simp [formatTurn]

theorem map_formatTurn_pairs (h : List Chat) :
    ((h.map (fun c =>
        [({ role := Role.user, content := c.message } : Msg),
         { role := Role.assistant, content := c.response }])).flatten).map formatTurn
      = (h.map (fun c => ["<s>[INST] " ++ c.message ++ " [/INST]", c.response])).flatten := by
  induction h with
  | nil => rfl
  | cons c cs ih =>
      simp only [List.map_cons, List.flatten_cons, List.map_append, ih,
        List.map_nil, formatTurn_user, formatTurn_assistant, List.cons_append,
        List.nil_append]

theorem buildMessages_map (h : List Chat) (m : String) :
    (buildMessages h m).map formatTurn = specTurnStrings h m := by
  unfold buildMessages specTurnStrings
  rw [List.map_append, map_formatTurn_pairs]
  simp [formatTurn_user]

/-- C6: the prompt is assembled from at most the 5 most recent turns of
the user, newest first; each stored turn becomes a user turn wrapped in
the instruction delimiters followed by the plain assistant response, the
new message is the final turn, the turns are joined by a newline, the
turns all belong to the user and come from the store, and for an empty
history the prompt is exactly the single new-message turn.  Prompt
assembly is a total function, so it has no failure modes. -/
theorem prompt_assembly_spec (store : List Chat) (u message : String) :
    buildPrompt (fetchRecentHistory store u) message
      = String.intercalate "\n" (specTurnStrings (fetchRecentHistory store u) message)
    ∧ (fetchRecentHistory store u).length ≤ 5
    ∧ (fetchRecentHistory store u).Pairwise (fun a b => b.timestamp ≤ a.timestamp)
    ∧ (∀ c ∈ fetchRecentHistory store u, c.user_id = u ∧ c ∈ store)
    ∧ buildPrompt [] message = "<s>[INST] " ++ message ++ " [/INST]" := by
  refine ⟨?_, ?_, ?_, ?_, ?_⟩
  · rw [buildPrompt, buildMessages_map]
  · exact List.length_take_le 5 _
  · exact (pairwise_sortDesc _).sublist (List.take_sublist 5 _)
  · intro c hc
    have hc2 : c ∈ userTurnsDesc store u := List.mem_of_mem_take hc
    have hc3 : c ∈ store.filter (fun c => c.user_id = u) :=
      (mem_sortDesc c _).mp hc2
    have hc4 := List.mem_filter.mp hc3
    exact ⟨by simpa using hc4.2, hc4.1⟩
  · rw [buildPrompt, buildMessages_map]
    simp [specTurnStrings, String.intercalate, String.intercalate.go]

theorem find?_filter_append (c : CacheState) (k : String) (slot : CacheSlot) :
    ((c.filter (fun kv => kv.1 ≠ k)) ++ [(k, slot)]).find? (fun kv => kv.1 = k)
      = some (k, slot) := by
  induction c with
  | nil => simp [List.find?]
  | cons kv c ih =>
      by_cases hk : kv.1 = k
      · simpa [List.filter_cons, hk] using ih
      · simpa [List.filter_cons, hk, List.find?_cons] using ih

theorem getCache_setCache (c : CacheState) (k : String) (v : HistoryResponse) (e : Nat) :
    getCache (setCache c k v e) k = some v := by
  unfold getCache setCache
  rw [find?_filter_append]

theorem mem_setCache (c : CacheState) (k : String) (v : HistoryResponse) (e : Nat) :
    (k, (⟨v, e⟩ : CacheSlot)) ∈ setCache c k v e := by
  unfold setCache
  exact List.mem_append_right _ (by simp)

/-- C7: on a cache miss, getHistory returns the turns of the user newest
first, skipping (page - 1) * limit and taking at most limit of them, all
owned by the user and drawn from the store; totalPages is the ceiling of
the user total turn count divided by limit (characterised by the two
inequalities below); the response is cached under the composite key with a
300 second expiry; and absent query parameters default to page 1 and
limit 20. -/
theorem getHistory_miss_spec (store : List Chat) (cache : CacheState) (u : String)
    (page limit : Nat) (hp : 1 ≤ page) (hl : 1 ≤ limit)
    (hmiss : getCache cache (cacheKey u page limit) = none) :
    (getHistory store cache u (some page) (some limit)).1.chats
      = ((userTurnsDesc store u).drop ((page - 1) * limit)).take limit
    ∧ (getHistory store cache u (some page) (some limit)).1.chats.length ≤ limit
    ∧ (getHistory store cache u (some page) (some limit)).1.chats.Pairwise
        (fun a b => b.timestamp ≤ a.timestamp)
    ∧ (∀ c ∈ (getHistory store cache u (some page) (some limit)).1.chats,
        c.user_id = u ∧ c ∈ store)
    ∧ (store.filter (fun c => c.user_id = u)).length
        ≤ (getHistory store cache u (some page) (some limit)).1.totalPages * limit
    ∧ (getHistory store cache u (some page) (some limit)).1.totalPages * limit
        < (store.filter (fun c => c.user_id = u)).length + limit
    ∧ getCache (getHistory store cache u (some page) (some limit)).2 (cacheKey u page limit)
        = some (getHistory store cache u (some page) (some limit)).1
    ∧ (cacheKey u page limit,
        (⟨(getHistory store cache u (some page) (some limit)).1, 300⟩ : CacheSlot))
        ∈ (getHistory store cache u (some page) (some limit)).2
    ∧ getHistory store cache u none none = getHistory store cache u (some 1) (some 20) := by
  have hred : getHistory store cache u (some page) (some limit)
      = ({ chats := ((userTurnsDesc store u).drop ((page - 1) * limit)).take limit,
           totalPages := ((store.filter (fun c => c.user_id = u)).length + limit - 1) / limit,
           currentPage := page },
         setCache cache (cacheKey u page limit)
           { chats := ((userTurnsDesc store u).drop ((page - 1) * limit)).take limit,
             totalPages := ((store.filter (fun c => c.user_id = u)).length + limit - 1) / limit,
             currentPage := page } 300) := by
    simp [getHistory, hmiss]
  have hceil1 : (store.filter (fun c => c.user_id = u)).length
      ≤ ((store.filter (fun c => c.user_id = u)).length + limit - 1) / limit * limit := by
    have hd := Nat.div_add_mod ((store.filter (fun c => c.user_id = u)).length + limit - 1) limit
    have hm : ((store.filter (fun c => c.user_id = u)).length + limit - 1) % limit < limit :=
      Nat.mod_lt _ hl
    rw [Nat.mul_comm]
    omega
  have hceil2 : ((store.filter (fun c => c.user_id = u)).length + limit - 1) / limit * limit
      < (store.filter (fun c => c.user_id = u)).length + limit := by
    have hd := Nat.div_add_mod ((store.filter (fun c => c.user_id = u)).length + limit - 1) limit
    have hm : ((store.filter (fun c => c.user_id = u)).length + limit - 1) % limit < limit :=
      Nat.mod_lt _ hl
    rw [Nat.mul_comm]
    omega
  refine ⟨by rw [hred], ?_, ?_, ?_, by rw [hred]; exact hceil1, by rw [hred]; exact hceil2,
    ?_, ?_, rfl⟩
  · rw [hred]
    exact List.length_take_le limit _
  · rw [hred]
    exact (pairwise_sortDesc _).sublist
      ((List.take_sublist _ _).trans (List.drop_sublist _ _))
  · rw [hred]
    intro c hc
    have hc2 : c ∈ userTurnsDesc store u :=
      List.mem_of_mem_drop (List.mem_of_mem_take hc)
    have hc3 : c ∈ store.filter (fun c => c.user_id = u) := (mem_sortDesc c _).mp hc2
    have hc4 := List.mem_filter.mp hc3
    exact ⟨by simpa using hc4.2, hc4.1⟩
  · rw [hred]
    exact getCache_setCache _ _ _ _
  · rw [hred]
    exact mem_setCache _ _ _ _

/-- C7 witness: a concrete cache miss for a store holding one turn of the
user, at page 1 and limit 20. -/
theorem getHistory_miss_spec_witness :
    (getHistory [⟨"u", "m", "r", 1⟩] [] "u" (some 1) (some 20)).1.chats
      = ((userTurnsDesc [⟨"u", "m", "r", 1⟩] "u").drop ((1 - 1) * 20)).take 20
    ∧ getCache (getHistory [⟨"u", "m", "r", 1⟩] [] "u" (some 1) (some 20)).2
        (cacheKey "u" 1 20)
      = some (getHistory [⟨"u", "m", "r", 1⟩] [] "u" (some 1) (some 20)).1
    ∧ getHistory [⟨"u", "m", "r", 1⟩] [] "u" none none
      = getHistory [⟨"u", "m", "r", 1⟩] [] "u" (some 1) (some 20) := by
  have h := getHistory_miss_spec [⟨"u", "m", "r", 1⟩] [] "u" 1 20 (by decide) (by decide) rfl
  exact ⟨h.1, h.2.2.2.2.2.2.1, h.2.2.2.2.2.2.2.2⟩

/-- C1: the intended coarse invalidation never happens.  A first getHistory
call caches the (empty) page of user u under chat_history:u:1:20; a chat
submission then completes successfully and persists one turn, but the
invalidation step deletes only the literal key chat_history:u:* (Redis DEL
does not expand the star), so the cache is unchanged and the next
getHistory call returns the stale pre-submission page with no turns even
though the store now holds the new turn. -/
theorem cache_not_invalidated_bug :
    (handleStreamResponse [StreamLine.frame (some "Hi")] StreamEnd.ended true
        [] (getHistory [] [] "u" none none).2 "u" "Hello" 5).2.1
      = [⟨"u", "Hello", "Hi", 5⟩]
    ∧ (handleStreamResponse [StreamLine.frame (some "Hi")] StreamEnd.ended true
        [] (getHistory [] [] "u" none none).2 "u" "Hello" 5).2.2
      = (getHistory [] [] "u" none none).2
    ∧ (getHistory
        (handleStreamResponse [StreamLine.frame (some "Hi")] StreamEnd.ended true
          [] (getHistory [] [] "u" none none).2 "u" "Hello" 5).2.1
        (handleStreamResponse [StreamLine.frame (some "Hi")] StreamEnd.ended true
          [] (getHistory [] [] "u" none none).2 "u" "Hello" 5).2.2
        "u" none none).1.chats = []
    ∧ userTurnsDesc
        (handleStreamResponse [StreamLine.frame (some "Hi")] StreamEnd.ended true
          [] (getHistory [] [] "u" none none).2 "u" "Hello" 5).2.1 "u"
      = [⟨"u", "Hello", "Hi", 5⟩] := by
  decide

/-- C5: if the primary provider call fails before yielding any stream,
the fallback provider is invoked, and both calls carry the identical
request (same prompt, same generation parameters); if the fallback call
also fails, the surfaced terminal error is the fallback error, and in
particular it is not the primary error whenever the two differ. -/
theorem fallback_orchestration (p f : InferenceRequest → Except AxiosError StreamData)
    (prompt : String) (e1 : AxiosError) (hp : p (hfRequest prompt) = Except.error e1) :
    (runWithFallback p f prompt).2
      = [(Provider.primary, hfRequest prompt), (Provider.fallback, hfRequest prompt)]
    ∧ ∀ e2, f (hfRequest prompt) = Except.error e2 →
        (runWithFallback p f prompt).1 = Except.error e2
        ∧ (e2 ≠ e1 → (runWithFallback p f prompt).1 ≠ Except.error e1) := by
  constructor
  · simp only [runWithFallback]
    rw [hp]
    cases hf : f (hfRequest prompt) <;> simp
  · intro e2 hf
    have hrun : (runWithFallback p f prompt).1 = Except.error e2 := by
      simp only [runWithFallback]
      rw [hp, hf]
    refine ⟨hrun, ?_⟩
    intro hne hcontra
    rw [hrun] at hcontra
    exact hne (by injection hcontra)

/-- C5 witness: the concrete always-failing provider stubs, applied to the
prompt x: the fallback is called with the identical request and its 503
error is the one surfaced. -/
theorem fallback_orchestration_witness :
    (runWithFallback primaryDownCall fallbackDownCall "x").2
      = [(Provider.primary, hfRequest "x"), (Provider.fallback, hfRequest "x")]
    ∧ (runWithFallback primaryDownCall fallbackDownCall "x").1
      = Except.error
          { code := none
            response := some { status := 503, data := "Service Unavailable" }
            message := "fallback down" } := by
  have h := fallback_orchestration primaryDownCall fallbackDownCall "x"
    { code := none, response := none, message := "primary down" } rfl
  exact ⟨h.1, (h.2 _ rfl).1⟩

/-- C8 counterexample: a validation failure (whitespace-only message) is
answered with status 400 but the body is an errors array, not a JSON
object with the fields error and message, contrary to the claim that every
pre-stream failure body has the error/message shape. -/
theorem error_shape_counterexample :
    (chatPost 900000 100 [] "u" 0 " " (Except.ok ())).1
      = (400, RespBody.errorsArray ["Message cannot be empty"])
    ∧ RespBody.isErrorMessage ((chatPost 900000 100 [] "u" 0 " " (Except.ok ())).1).2
      = false := by
  constructor
  · decide
  · decide

/-- C8 (amended): every chat submission failure occurring before any
content is streamed is answered as follows: a validation failure is 400
with an errors array body; a rate-limit denial is 429 with an
error/message body carrying the retry seconds in the message; an
ECONNABORTED error is 504 with an error/message body; an error holding a
provider response is answered with the provider status and an
error/message body; any other error is 500 with an error/message body. -/
theorem chat_error_responses (window maxReq : Nat) (st : RateState) (u : String)
    (now : Nat) (m : String) :
    (∀ inference, isBlank m = true →
        chatPost window maxReq st u now m inference
          = ((400, RespBody.errorsArray ["Message cannot be empty"]), st))
    ∧ (∀ inference retry st1, isBlank m = false →
        rateLimit window maxReq st u now = (RateResult.denied retry, st1) →
        chatPost window maxReq st u now m inference
          = ((429, RespBody.errorMessage "Rate limit exceeded"
              ("Please wait " ++ toString retry ++ " seconds before trying again")), st1))
    ∧ (∀ e st1, isBlank m = false →
        rateLimit window maxReq st u now = (RateResult.allowed, st1) →
        chatPost window maxReq st u now m (Except.error e) = (catchErrorResponse e, st1))
    ∧ (∀ e : AxiosError, e.code = some "ECONNABORTED" →
        catchErrorResponse e
          = (504, RespBody.errorMessage "Request timeout"
              "AI service took too long to respond"))
    ∧ (∀ (e : AxiosError) (r : ProviderResponse),
        e.code ≠ some "ECONNABORTED" → e.response = some r →
        catchErrorResponse e = (r.status, RespBody.errorMessage "AI service error" r.data))
    ∧ (∀ e : AxiosError, e.code ≠ some "ECONNABORTED" → e.response = none →
        catchErrorResponse e = (500, RespBody.errorMessage "Server error" e.message)) := by
  refine ⟨?_, ?_, ?_, ?_, ?_, ?_⟩
  · intro inference hm
    simp [chatPost, hm]
  · intro inference retry st1 hm hrl
    simp [chatPost, hm, hrl]
  · intro e st1 hm hrl
    simp [chatPost, hm, hrl]
  · intro e he
    simp [catchErrorResponse, he]
  · intro e r hc hr
    simp [catchErrorResponse, hc, hr]
  · intro e hc hr
    simp [catchErrorResponse, hc, hr]

/-- C8 witness: one concrete instance per branch of the error taxonomy:
validation 400, rate-limit 429 with the retry seconds in the message,
timeout 504, provider 503 passthrough, uncategorized 500. -/
theorem chat_error_responses_witness :
    chatPost 900000 100 [] "u" 0 " " (Except.ok ())
      = ((400, RespBody.errorsArray ["Message cannot be empty"]), [])
    ∧ chatPost 900000 100 [("u", ⟨100, 0⟩)] "u" 5 "hello" (Except.ok ())
      = ((429, RespBody.errorMessage "Rate limit exceeded"
          ("Please wait " ++ toString 900 ++ " seconds before trying again")),
         [("u", ⟨100, 0⟩)])
    ∧ catchErrorResponse { code := some "ECONNABORTED", response := none, message := "t" }
      = (504, RespBody.errorMessage "Request timeout" "AI service took too long to respond")
    ∧ catchErrorResponse
        { code := none, response := some { status := 503, data := "busy" }, message := "f" }
      = (503, RespBody.errorMessage "AI service error" "busy")
    ∧ catchErrorResponse { code := none, response := none, message := "socket hang up" }
      = (500, RespBody.errorMessage "Server error" "socket hang up") := by
  have h := chat_error_responses 900000 100 [] "u" 0 " "
  have h2 := chat_error_responses 900000 100 [("u", ⟨100, 0⟩)] "u" 5 "hello"
  refine ⟨h.1 (Except.ok ()) (by decide), ?_, h.2.2.2.1 _ rfl,
    h.2.2.2.2.1 _ _ (by decide) rfl, h.2.2.2.2.2 _ (by decide) rfl⟩
  exact h2.2.1 (Except.ok ()) 900 [("u", ⟨100, 0⟩)] (by decide) (by decide)

/-- C10: a whitespace-only (or empty) message is rejected with 400 by the
validation middleware before the rate governor runs: the rate-limit state
is returned unchanged, so the rate entry of the user is exactly what it
was before the request. -/
theorem validation_guards_rate_budget (window maxReq : Nat) (st : RateState) (u : String)
    (now : Nat) (m : String) (inference : Except AxiosError Unit)
    (hm : isBlank m = true) :
    chatPost window maxReq st u now m inference
      = ((400, RespBody.errorsArray ["Message cannot be empty"]), st)
    ∧ (chatPost window maxReq st u now m inference).2 = st
    ∧ mapGet (chatPost window maxReq st u now m inference).2 u = mapGet st u := by
  have h : chatPost window maxReq st u now m inference
      = ((400, RespBody.errorsArray ["Message cannot be empty"]), st) := by
    simp [chatPost, hm]
  exact ⟨h, by rw [h], by rw [h]⟩

/-- C10 witness: a whitespace-only message leaves the concrete rate state
of the user untouched. -/
theorem validation_guards_rate_budget_witness :
    chatPost 900000 100 [("u", ⟨3, 0⟩)] "u" 5 " " (Except.ok ())
      = ((400, RespBody.errorsArray ["Message cannot be empty"]), [("u", ⟨3, 0⟩)])
    ∧ mapGet (chatPost 900000 100 [("u", ⟨3, 0⟩)] "u" 5 " " (Except.ok ())).2 "u"
      = mapGet [("u", ⟨3, 0⟩)] "u" := by
  have h := validation_guards_rate_budget 900000 100 [("u", ⟨3, 0⟩)] "u" 5 " "
    (Except.ok ()) (by decide)
  exact ⟨h.1, h.2.2⟩

end SIR
